import Mathlib

/-!
# Verification of the `bookstore` CRUD service (src/bookstore/main.go)

A shallow embedding of the bookstore web service.  The MongoDB collection is
modelled as a `List Book` in store order; each driver call that the Go code
makes (`InsertOne`, `DeleteOne`, `UpdateOne`, `Find`) is embedded as a pure
function on that list, mirroring the documented semantics of the driver for
this schema (`_id` carries a unique index, so at most one document matches an
`_id` filter).  Driver/transport failure is nondeterministic and is modelled
by a `storeOk : Bool` oracle passed to each handler; `storeOk = true` is the
run in which the store call succeeds.

`primitive.ObjectID` values are modelled as the natural number given by their
12 bytes; `primitive.ObjectIDFromHex` is embedded below.  `primitive.NewObjectID`
is nondeterministic (timestamp + random), so the handler that calls it takes
the generated id as an explicit `freshId` parameter.

`float64` costs are modelled exactly: `strconv.ParseFloat` is embedded as a
parser producing the exact rational value of the literal (`GoFloat.finite q`),
with `Inf`/`NaN` as separate constructors.  Rounding of the exact value to the
nearest binary64 is abstracted away, with one exception that the handlers can
observe: when the value is at least half an ULP beyond the largest finite
float64, Go returns `ErrRange`, which the handlers treat exactly like a syntax
error, so the embedded parser returns `none` there.
-/

/-- The value space of Go `float64` as the handlers use it: an exact finite
rational, an infinity, or NaN.  No handler in the source compares or computes
with costs, so the exact-rational abstraction of binary64 rounding is sound
for every claim stated below. -/
inductive GoFloat where
  | finite (q : ℚ)
  | inf (neg : Bool)
  | nan
deriving DecidableEq, Repr

/-- `Book` (src/bookstore/main.go lines 19 to 24): `ID` is the ObjectID as a
natural number, `Cost` the parsed float. -/
structure Book where
  id : Nat
  name : String
  author : String
  cost : GoFloat
deriving DecidableEq, Repr

/-- One HTTP form request as the handlers read it: `r.Method`, and
`r.FormValue` for each field the handlers ask for.  `FormValue` returns `""`
when the field is absent, so a missing field and an empty field coincide. -/
structure Request where
  method : String
  formId : String
  formName : String
  formAuthor : String
  formCost : String
deriving DecidableEq, Repr

/-- What a handler writes to the `ResponseWriter`: either `http.Error w msg code`
(status `code`, plain-text message), a 200 script fragment written with
`fmt.Fprintf`, or the 200 rendered listing page. -/
inductive Response where
  | httpError (msg : String) (status : Nat)
  | ok (fragment : String)
  | page (html : String)
deriving DecidableEq, Repr

/-- Status code of a response; `WriteHeader` is never called on the success
paths, so they are 200. -/
def Response.statusCode : Response → Nat
  | .httpError _ s => s
  | .ok _ => 200
  | .page _ => 200

/-- The script fragment the handlers print on success, built exactly as the
`fmt.Fprintf` calls build it. -/
def alertScript (msg : String) : String :=
  "<script>alert(\x27" ++ msg ++ "\x27); window.location.href = \x27/\x27;</script>"

/-! ## strconv.ParseFloat -/

/-- Go `strconv`: `lower(c) = c | ('x' - 'X')`, i.e. set bit 5. -/
def goLower (c : Char) : Char :=
  Char.ofNat (c.toNat ||| 32)

def isDigit (c : Char) : Bool :=
  48 ≤ c.toNat && c.toNat ≤ 57

def digVal (c : Char) : Nat := c.toNat - 48

/-- Hex letter in either case (`'a'..'f'` after `goLower`). -/
def isHexLetter (c : Char) : Bool :=
  97 ≤ (goLower c).toNat && (goLower c).toNat ≤ 102

def hexLetterVal (c : Char) : Nat := (goLower c).toNat - 87

def isHexDigit (c : Char) : Bool :=
  isDigit c || isHexLetter c

def hexDigitVal (c : Char) : Nat :=
  if isDigit c then digVal c else hexLetterVal c

/-- `strconv.special`: after an optional sign, a case-insensitive `inf` or
`infinity`; `nan` (case-insensitive) is recognised only without a sign.
`ParseFloat` then requires the whole input to have been consumed, so the
embedding matches against the entire string. -/
def isInfKeyword (s : List Char) : Bool :=
  s.map goLower = ['i', 'n', 'f'] || s.map goLower = ['i', 'n', 'f', 'i', 'n', 'i', 't', 'y']

def parseSpecial (s : List Char) : Option GoFloat :=
  match s with
  | '+' :: rest => if isInfKeyword rest then some (.inf false) else none
  | '-' :: rest => if isInfKeyword rest then some (.inf true) else none
  | _ =>
    if isInfKeyword s then some (.inf false)
    else if s.map goLower = ['n', 'a', 'n'] then some .nan
    else none

/-- Accumulator of `strconv.readFloat`: mantissa digits read so far, their
count, the digit position of the decimal point if one was seen, whether any
digit was seen, and whether any underscore was consumed. -/
structure MantAcc where
  mant : Nat
  nd : Nat
  dp : Option Nat
  sawdigits : Bool
  underscores : Bool
deriving Repr

def MantAcc.init : MantAcc := ⟨0, 0, none, false, false⟩

/-- The mantissa loop of `strconv.readFloat`: consumes digits (hex digits when
`hex`), underscores, and at most one decimal point; stops at anything else
(including a second decimal point, which Go leaves unconsumed so that the
final full-consumption check fails). -/
def scanMant (hex : Bool) : List Char → MantAcc → MantAcc × List Char
  | [], acc => (acc, [])
  | c :: rest, acc =>
    if c = '_' then
      scanMant hex rest { acc with underscores := true }
    else if c = '.' then
      match acc.dp with
      | some _ => (acc, c :: rest)
      | none => scanMant hex rest { acc with dp := some acc.nd }
    else if isDigit c then
      scanMant hex rest
        { acc with
          mant := acc.mant * (if hex then 16 else 10) + digVal c
          nd := acc.nd + 1
          sawdigits := true }
    else if hex && isHexLetter c then
      scanMant hex rest
        { acc with mant := acc.mant * 16 + hexLetterVal c, nd := acc.nd + 1, sawdigits := true }
    else
      (acc, c :: rest)

/-- Exponent-digit loop of `strconv.readFloat`: consumes digits and
underscores, accumulating the exponent value; stops at anything else.
Returns (value, saw-underscore, rest). -/
def scanExpDigits : List Char → Nat → Bool → Nat × Bool × List Char
  | [], e, us => (e, us, [])
  | c :: rest, e, us =>
    if isDigit c then scanExpDigits rest (e * 10 + digVal c) us
    else if c = '_' then scanExpDigits rest e true
    else (e, us, c :: rest)

/-- `strconv.underscoreOK s`: every underscore must sit between two digits
(the `0` of a base prefix and the `x` count as digits for this purpose).
`saw` is `'0'` after a digit, `'_'` after an underscore, `'!'` after anything
else, `'^'` at the start. -/
def underscoreOKLoop (hex : Bool) : List Char → Char → Bool
  | [], saw => saw ≠ '_'
  | c :: rest, saw =>
    if isDigit c || (hex && isHexLetter c) then underscoreOKLoop hex rest '0'
    else if c = '_' then
      if saw ≠ '0' then false else underscoreOKLoop hex rest '_'
    else if saw = '_' then false
    else underscoreOKLoop hex rest '!'

def underscoreOK (s : List Char) : Bool :=
  let s1 := match s with
    | c :: rest => if c = '+' || c = '-' then rest else c :: rest
    | [] => []
  match s1 with
  | '0' :: c :: rest =>
    if goLower c = 'b' || goLower c = 'o' || goLower c = 'x' then
      underscoreOKLoop (goLower c = 'x') rest '0'
    else
      underscoreOKLoop false s1 '^'
  | _ => underscoreOKLoop false s1 '^'

/-- `b ^ k` for an integer `k`, in `ℚ`. -/
def qzpow (b : ℚ) (k : ℤ) : ℚ :=
  if 0 ≤ k then b ^ k.toNat else (b ^ (-k).toNat)⁻¹

/-- Exact value of a parsed mantissa/exponent pair.  Decimal:
`mant * 10 ^ (dp - nd + e)`.  Hex: the `p` exponent is a power of two while
each digit is a power of sixteen, so `mant * 2 ^ (e + 4 * (dp - nd))`. -/
def floatValue (hex : Bool) (mant : Nat) (nd dp : Nat) (e : ℤ) (neg : Bool) : ℚ :=
  let q :=
    if hex then (mant : ℚ) * qzpow 2 (e + 4 * ((dp : ℤ) - (nd : ℤ)))
    else (mant : ℚ) * qzpow 10 ((dp : ℤ) - (nd : ℤ) + e)
  if neg then -q else q

/-- Smallest magnitude that `ParseFloat` reports as an overflow (`ErrRange`):
half an ULP past the largest finite binary64, that is `2 ^ 1024 - 2 ^ 970`,
written out as a literal so that concrete runs evaluate. -/
def f64OverflowBound : ℚ :=
  ((179769313486231580793728971405303415079934132710037826936173778980444968292764750946649017977587207096330286416692887910946555547851940402630657488671505820681908902000708383676273854845817711531764475730270069855571366959622842914819860834936475292719074168444365510704342711559699508093042880177904174497792 : Nat) : ℚ)

theorem f64OverflowBound_eq : f64OverflowBound = ((2 ^ 1024 - 2 ^ 970 : Nat) : ℚ) := by
  norm_num [f64OverflowBound]

/-- `strconv.readFloat` followed by the full-consumption check of
`ParseFloat`: optional sign, optional `0x` prefix, mantissa digits with at
most one decimal point, then a mandatory `p` exponent for hex and an optional
`e` exponent for decimal; underscores validated by `underscoreOK` over the
whole (fully consumed) input.  Returns the exact value. -/
def readFloatQ (s : List Char) : Option ℚ :=
  let signAndRest : Bool × List Char :=
    match s with
    | '+' :: r => (false, r)
    | '-' :: r => (true, r)
    | r => (false, r)
  let neg := signAndRest.1
  let s1 := signAndRest.2
  let hexAndRest : Bool × List Char :=
    match s1 with
    | '0' :: c :: r => if goLower c = 'x' then (true, r) else (false, s1)
    | _ => (false, s1)
  let hex := hexAndRest.1
  let s2 := hexAndRest.2
  let scanned := scanMant hex s2 MantAcc.init
  let acc := scanned.1
  let rest := scanned.2
  if !acc.sawdigits then none
  else
    let dp := acc.dp.getD acc.nd
    let expChar : Char := if hex then 'p' else 'e'
    match rest with
    | c :: r =>
      if goLower c = expChar then
        let esignAndRest : ℤ × List Char :=
          match r with
          | '+' :: rr => (1, rr)
          | '-' :: rr => (-1, rr)
          | rr => (1, rr)
        match esignAndRest.2 with
        | d :: _ =>
          if isDigit d then
            let scannedE := scanExpDigits esignAndRest.2 0 false
            if scannedE.2.2 = [] then
              if (acc.underscores || scannedE.2.1) && !underscoreOK s then none
              else some (floatValue hex acc.mant acc.nd dp (esignAndRest.1 * scannedE.1) neg)
            else none
          else none
        | [] => none
      else none
    | [] =>
      if hex then none
      else if acc.underscores && !underscoreOK s then none
      else some (floatValue hex acc.mant acc.nd dp 0 neg)

/-- `strconv.ParseFloat(s, 64)` as the handlers use it: `some v` exactly when
Go returns a nil error (so the handler proceeds), `none` when Go returns an
error — a syntax error, or the overflow `ErrRange` that the handlers do not
distinguish from it.  Underflow to zero is not an error in Go `atof64` and is
absorbed by the exact-value abstraction. -/
def parseFloat (str : String) : Option GoFloat :=
  match parseSpecial str.toList with
  | some f => some f
  | none =>
    match readFloatQ str.toList with
    | none => none
    | some q => if f64OverflowBound ≤ |q| then none else some (.finite q)

/-! ## primitive.ObjectIDFromHex -/

/-- `primitive.ObjectIDFromHex`: the string must be exactly 24 characters and
decode as hex (`encoding/hex` accepts both letter cases); the resulting
ObjectID is the 12-byte value, modelled as the natural number it denotes.
Non-ASCII input cannot satisfy both checks in either the Go byte view or this
character view, so the accepted sets coincide. -/
def objectIDFromHex (s : String) : Option Nat :=
  if s.length = 24 && s.toList.all isHexDigit then
    some (s.toList.foldl (fun acc c => acc * 16 + hexDigitVal c) 0)
  else none

/-- The zero `primitive.ObjectID` (`primitive.NilObjectID`), the value a
`Book` holds when it is "without an id"; `bson:"_id,omitempty"` omits exactly
this value. -/
def nilObjectID : Nat := 0

/-! ## The collection: one MongoDB collection in store order -/

/-- `coll.InsertOne(ctx, b)`: stores the document exactly as given (the `_id`
is already set by the caller); fails with a duplicate-key error when a
document with the same `_id` exists. -/
def insertOne (db : List Book) (b : Book) : Except String (List Book) :=
  if db.any (fun x => x.id = b.id) then .error "duplicate key"
  else .ok (db ++ [b])

/-- `coll.DeleteOne(ctx, {_id: oid})`: removes the first document matching the
filter, returning the new collection and `DeletedCount`. -/
def deleteOne (db : List Book) (oid : Nat) : List Book × Nat :=
  match db with
  | [] => ([], 0)
  | b :: rest =>
    if b.id = oid then (rest, 1)
    else
      let r := deleteOne rest oid
      (b :: r.1, r.2)

/-- `coll.UpdateOne(ctx, {_id: oid}, {$set: {name, author, cost}})`: rewrites
the three set fields of the first matching document, returning the new
collection and `MatchedCount`. -/
def updateOne (db : List Book) (oid : Nat) (n a : String) (c : GoFloat) :
    List Book × Nat :=
  match db with
  | [] => ([], 0)
  | b :: rest =>
    if b.id = oid then ({ b with name := n, author := a, cost := c } :: rest, 1)
    else
      let r := updateOne rest oid n a c
      (b :: r.1, r.2)

/-- `getBooks` (lines 215 to 240): `Find` with the empty filter returns every
document in store order; decoding documents written by this same schema
succeeds, so the only failure is a store failure, modelled by the oracle. -/
def getBooks (storeOk : Bool) (db : List Book) : Except String (List Book) :=
  if storeOk then .ok db else .error "find failed"

/-! ## Handlers -/

/-- The `Book` literal built at lines 103 to 108 of `handleSubmit`: the id is
the value `primitive.NewObjectID()` just produced (here the `freshId`
parameter), the other fields the decoded form values. -/
def submitBook (freshId : Nat) (req : Request) (c : GoFloat) : Book :=
  { id := freshId, name := req.formName, author := req.formAuthor, cost := c }

/-- `handleSubmit` (lines 84 to 123). -/
def handleSubmit (storeOk : Bool) (freshId : Nat) (db : List Book) (req : Request) :
    Response × List Book :=
  if req.method ≠ "POST" then (.httpError "Method not allowed" 405, db)
  else
    match parseFloat req.formCost with
    | none => (.httpError "Invalid cost" 400, db)
    | some c =>
      if storeOk then
        match insertOne db (submitBook freshId req c) with
        | .error _ => (.httpError "Failed to insert book" 500, db)
        | .ok db2 => (.ok (alertScript "Book added successfully!"), db2)
      else (.httpError "Failed to insert book" 500, db)

/-- `handleDelete` (lines 125 to 161). -/
def handleDelete (storeOk : Bool) (db : List Book) (req : Request) :
    Response × List Book :=
  if req.method ≠ "POST" then (.httpError "Method not allowed" 405, db)
  else if req.formId = "" then (.httpError "Invalid book ID" 400, db)
  else
    match objectIDFromHex req.formId with
    | none => (.httpError "Invalid book ID" 400, db)
    | some oid =>
      if storeOk then
        let r := deleteOne db oid
        if r.2 = 0 then (.ok (alertScript "Book not found!"), r.1)
        else (.ok (alertScript "Book deleted successfully!"), r.1)
      else (.httpError "Failed to delete book" 500, db)

/-- `handleModify` (lines 163 to 213): note that the update result is bound to
`_`, so the matched count is never inspected. -/
def handleModify (storeOk : Bool) (db : List Book) (req : Request) :
    Response × List Book :=
  if req.method ≠ "POST" then (.httpError "Method not allowed" 405, db)
  else if req.formId = "" then (.httpError "Invalid book ID" 400, db)
  else
    match objectIDFromHex req.formId with
    | none => (.httpError "Invalid book ID" 400, db)
    | some oid =>
      match parseFloat req.formCost with
      | none => (.httpError "Invalid cost" 400, db)
      | some c =>
        if storeOk then
          (.ok (alertScript "Book modified successfully!"), (updateOne db oid req.formName req.formAuthor c).1)
        else (.httpError "Failed to update book" 500, db)

/-! ## Rendering (GET /) -/

/-- `template.HTMLEscapeString` / the html-template text-context escaper: the
five HTML special characters are replaced by entities. -/
def htmlEscapeChar (c : Char) : String :=
  if c = '&' then "&amp;"
  else if c = '\x27' then "&#39;"
  else if c = '<' then "&lt;"
  else if c = '>' then "&gt;"
  else if c = '"' then "&#34;"
  else String.singleton c

def htmlEscapeString (s : String) : String :=
  String.join (s.toList.map htmlEscapeChar)

/-- Text form of a cost for display; costs contain no HTML special
characters, so escaping them is the identity. -/
def costText : GoFloat → String
  | .finite q => toString q
  | .inf false => "+Inf"
  | .inf true => "-Inf"
  | .nan => "NaN"

/-- Modelled from the spec: the template file `index.html` is not under
`src/`; section 4.4 of the spec says the page embeds a table of all records
and that rendering escapes every record field.  `html/template` escapes each
`{{.Name}}`-style action in text context with the escaper above, so each row
shows the escaped name, author and cost. -/
def renderRow (b : Book) : String :=
  "<tr><td>" ++ htmlEscapeString b.name ++ "</td><td>" ++ htmlEscapeString b.author ++
    "</td><td>" ++ htmlEscapeString (costText b.cost) ++ "</td></tr>"

/-- Modelled from the spec: the rows of the listing table, one per record, in
list order. -/
def renderRows : List Book → String
  | [] => ""
  | b :: rest => renderRow b ++ renderRows rest

/-- Modelled from the spec: the full listing page around the table. -/
def renderIndex (db : List Book) : String :=
  "<html><body><table>" ++ renderRows db ++ "</table></body></html>"

/-- `handleIndex` (lines 63 to 82), with `tpl.Execute` rendering the page. -/
def handleIndex (storeOk : Bool) (db : List Book) (method : String) : Response :=
  if method ≠ "GET" then .httpError "Method not allowed" 405
  else
    match getBooks storeOk db with
    | .error _ => .httpError "Failed to get books" 500
    | .ok books => .page (renderIndex books)

/-! ## Store-operation lemmas -/

theorem insertOne_of_fresh (db : List Book) (b : Book) (h : b.id ∉ db.map Book.id) :
    insertOne db b = .ok (db ++ [b]) := by
  have : db.any (fun x => x.id = b.id) = false := by
    rw [List.any_eq_false]
    intro x hx hxe
    exact h (List.mem_map.mpr ⟨x, hx, of_decide_eq_true hxe⟩)
  simp [insertOne, this]

theorem deleteOne_of_not_mem (db : List Book) (oid : Nat) (h : oid ∉ db.map Book.id) :
    deleteOne db oid = (db, 0) := by
  induction db with
  | nil => rfl
  | cons b rest ih =>
    simp only [List.map_cons, List.mem_cons, not_or] at h
    simp [deleteOne, Ne.symm h.1, ih h.2]

theorem deleteOne_subset (db : List Book) (oid : Nat) :
    ∀ b ∈ (deleteOne db oid).1, b ∈ db := by
  induction db with
  | nil => intro b hb; simp [deleteOne] at hb
  | cons x rest ih =>
    intro b hb
    by_cases hx : x.id = oid
    · simp only [deleteOne, if_pos hx] at hb
      exact List.mem_cons_of_mem x hb
    · simp only [deleteOne, if_neg hx] at hb
      rcases List.mem_cons.mp hb with h | h
      · exact h ▸ List.mem_cons_self x rest
      · exact List.mem_cons_of_mem x (ih b h)

theorem deleteOne_count_of_mem (db : List Book) (oid : Nat)
    (h : oid ∈ db.map Book.id) :
    (deleteOne db oid).2 = 1 ∧ (deleteOne db oid).1.length + 1 = db.length := by
  induction db with
  | nil => simp at h
  | cons x rest ih =>
    by_cases hx : x.id = oid
    · simp [deleteOne, hx]
    · have hmem : oid ∈ rest.map Book.id := by
        rcases List.mem_cons.mp h with h1 | h1
        · exact absurd h1.symm hx
        · exact h1
      obtain ⟨h1, h2⟩ := ih hmem
      simp [deleteOne, hx, h1, h2]

theorem deleteOne_eq_filter (db : List Book) (oid : Nat)
    (hnd : (db.map Book.id).Nodup) :
    (deleteOne db oid).1 = db.filter (fun b => b.id ≠ oid) := by
  induction db with
  | nil => rfl
  | cons x rest ih =>
    simp only [List.map_cons, List.nodup_cons] at hnd
    by_cases hx : x.id = oid
    · have hrest : rest.filter (fun b => !decide (b.id = oid)) = rest := by
        rw [List.filter_eq_self]
        intro b hb
        have : b.id ≠ oid := fun he => hnd.1 (hx ▸ he ▸ List.mem_map_of_mem Book.id hb)
        simpa using this
      simp [deleteOne, hx, hrest]
    · have : (decide ¬x.id = oid) = true := by simpa using hx
      simp [deleteOne, hx, List.filter_cons, this, ih hnd.2]

theorem updateOne_map_id (db : List Book) (oid : Nat) (n a : String) (c : GoFloat) :
    (updateOne db oid n a c).1.map Book.id = db.map Book.id := by
  induction db with
  | nil => rfl
  | cons x rest ih =>
    by_cases hx : x.id = oid
    · simp [updateOne, hx]
    · simp [updateOne, hx, ih]

theorem updateOne_eq_map (db : List Book) (oid : Nat) (n a : String) (c : GoFloat)
    (hnd : (db.map Book.id).Nodup) :
    (updateOne db oid n a c).1 =
      db.map (fun b => if b.id = oid then { id := oid, name := n, author := a, cost := c } else b) := by
  induction db with
  | nil => rfl
  | cons x rest ih =>
    simp only [List.map_cons, List.nodup_cons] at hnd
    by_cases hx : x.id = oid
    · have hrest :
          rest.map (fun b => if b.id = oid then
              ({ id := oid, name := n, author := a, cost := c } : Book) else b) = rest := by
        conv_rhs => rw [← List.map_id rest]
        apply List.map_congr_left
        intro b hb
        have : b.id ≠ oid := fun he => hnd.1 (hx ▸ he ▸ List.mem_map_of_mem Book.id hb)
        simp [this]
      simp [updateOne, hx, hrest]
    · simp [updateOne, hx, ih hnd.2]

/-! ## Handler-path lemmas -/

theorem handleSubmit_ok (db : List Book) (req : Request) (freshId : Nat) (c : GoFloat)
    (hm : req.method = "POST") (hc : parseFloat req.formCost = some c)
    (hfresh : freshId ∉ db.map Book.id) :
    handleSubmit true freshId db req =
      (.ok (alertScript "Book added successfully!"), db ++ [submitBook freshId req c]) := by
  have hins : insertOne db (submitBook freshId req c) = .ok (db ++ [submitBook freshId req c]) :=
    insertOne_of_fresh db (submitBook freshId req c) hfresh
  simp [handleSubmit, hm, hc, hins]

/-! ## Renderer lemmas -/

theorem toList_append (s t : String) : (s ++ t).toList = s.toList ++ t.toList := by
  simp [String.toList, String.data_append]

theorem renderRows_infix_of_mem (db : List Book) (b : Book) (hb : b ∈ db) :
    List.IsInfix (htmlEscapeString b.name).toList (renderRows db).toList ∧
      List.IsInfix (htmlEscapeString b.author).toList (renderRows db).toList := by
  induction db with
  | nil => simp at hb
  | cons x rest ih =>
    rcases List.mem_cons.mp hb with hbx | hbr
    · subst hbx
      constructor
      · exact ⟨"<tr><td>".toList,
          ("</td><td>" ++ htmlEscapeString b.author ++ "</td><td>" ++
            htmlEscapeString (costText b.cost) ++ "</td></tr>" ++ renderRows rest).toList,
          by simp [renderRows, renderRow, toList_append]⟩
      · exact ⟨("<tr><td>" ++ htmlEscapeString b.name ++ "</td><td>").toList,
          ("</td><td>" ++ htmlEscapeString (costText b.cost) ++ "</td></tr>" ++
            renderRows rest).toList,
          by simp [renderRows, renderRow, toList_append]⟩
    · obtain ⟨⟨s1, t1, h1⟩, ⟨s2, t2, h2⟩⟩ := ih hbr
      constructor
      · exact ⟨(renderRow x).toList ++ s1, t1, by
          simp only [renderRows, toList_append, List.append_assoc, h1]⟩
      · exact ⟨(renderRow x).toList ++ s2, t2, by
          simp only [renderRows, toList_append, List.append_assoc, h2]⟩

theorem renderIndex_infix_of_mem (db : List Book) (b : Book) (hb : b ∈ db) :
    List.IsInfix (htmlEscapeString b.name).toList (renderIndex db).toList ∧
      List.IsInfix (htmlEscapeString b.author).toList (renderIndex db).toList := by
  obtain ⟨⟨s1, t1, h1⟩, ⟨s2, t2, h2⟩⟩ := renderRows_infix_of_mem db b hb
  constructor
  · exact ⟨"<html><body><table>".toList ++ s1, t1 ++ "</table></body></html>".toList, by
      simp only [renderIndex, toList_append, List.append_assoc, ← h1]⟩
  · exact ⟨"<html><body><table>".toList ++ s2, t2 ++ "</table></body></html>".toList, by
      simp only [renderIndex, toList_append, List.append_assoc, ← h2]⟩

/-! ## Claims -/

section ClaimProofs

set_option maxRecDepth 100000

attribute [local semireducible] Rat.mul Rat.add Rat.inv Rat.sub Rat.ofScientific

/-- C1: for every create request to POST /submit whose cost field parses, the
insert succeeds with a record whose name, author and cost equal the submitted
values and whose id is the freshly generated id, distinct from the id of every
record previously in the store; a subsequent list (GET /) returns that record
among its results. -/
theorem submit_create_retrievable (db : List Book) (req : Request) (freshId : Nat) (c : GoFloat)
    (hm : req.method = "POST") (hc : parseFloat req.formCost = some c)
    (hfresh : freshId ∉ db.map Book.id) :
    (handleSubmit true freshId db req).1 = .ok (alertScript "Book added successfully!") ∧
    (handleSubmit true freshId db req).2 = db ++ [submitBook freshId req c] ∧
    (submitBook freshId req c).name = req.formName ∧
    (submitBook freshId req c).author = req.formAuthor ∧
    (submitBook freshId req c).cost = c ∧
    (∀ b ∈ db, b.id ≠ (submitBook freshId req c).id) ∧
    getBooks true (handleSubmit true freshId db req).2 = .ok (db ++ [submitBook freshId req c]) ∧
    submitBook freshId req c ∈ (handleSubmit true freshId db req).2 := by
  have h := handleSubmit_ok db req freshId c hm hc hfresh
  refine ⟨by rw [h], by rw [h], rfl, rfl, rfl, ?_, by rw [h]; simp [getBooks], by rw [h]; simp⟩
  intro b hb he
  exact hfresh (List.mem_map.mpr ⟨b, hb, he⟩)

/-- Witness for C1 at a concrete request over a one-record store. -/
theorem submit_create_retrievable_witness :
    (handleSubmit true 2 [⟨1, "Dune", "Herbert", .finite 5⟩]
        ⟨"POST", "", "Emma", "Austen", "12.50"⟩).1 =
      .ok (alertScript "Book added successfully!") ∧
    (handleSubmit true 2 [⟨1, "Dune", "Herbert", .finite 5⟩]
        ⟨"POST", "", "Emma", "Austen", "12.50"⟩).2 =
      [⟨1, "Dune", "Herbert", .finite 5⟩] ++
        [submitBook 2 ⟨"POST", "", "Emma", "Austen", "12.50"⟩ (.finite (25/2))] ∧
    (submitBook 2 ⟨"POST", "", "Emma", "Austen", "12.50"⟩ (.finite (25/2))).name = "Emma" ∧
    (submitBook 2 ⟨"POST", "", "Emma", "Austen", "12.50"⟩ (.finite (25/2))).author = "Austen" ∧
    (submitBook 2 ⟨"POST", "", "Emma", "Austen", "12.50"⟩ (.finite (25/2))).cost =
      .finite (25/2) ∧
    (∀ b ∈ [(⟨1, "Dune", "Herbert", .finite 5⟩ : Book)],
      b.id ≠ (submitBook 2 ⟨"POST", "", "Emma", "Austen", "12.50"⟩ (.finite (25/2))).id) ∧
    getBooks true (handleSubmit true 2 [⟨1, "Dune", "Herbert", .finite 5⟩]
        ⟨"POST", "", "Emma", "Austen", "12.50"⟩).2 =
      .ok ([⟨1, "Dune", "Herbert", .finite 5⟩] ++
        [submitBook 2 ⟨"POST", "", "Emma", "Austen", "12.50"⟩ (.finite (25/2))]) ∧
    submitBook 2 ⟨"POST", "", "Emma", "Austen", "12.50"⟩ (.finite (25/2)) ∈
      (handleSubmit true 2 [⟨1, "Dune", "Herbert", .finite 5⟩]
        ⟨"POST", "", "Emma", "Austen", "12.50"⟩).2 :=
  submit_create_retrievable [⟨1, "Dune", "Herbert", .finite 5⟩]
    ⟨"POST", "", "Emma", "Austen", "12.50"⟩ 2 (.finite (25/2)) rfl (by decide) (by decide)

/-- C2: a POST /modify request with a well-formed id and parseable cost whose
store call succeeds gets the 200 fragment saying modified, with no hypothesis
at all on whether the id matches any record: the matched count is never
inspected, so zero-affected is also reported as modified. -/
theorem modify_success_regardless_of_match (db : List Book) (req : Request) (oid : Nat)
    (c : GoFloat) (hm : req.method = "POST") (hne : req.formId ≠ "")
    (hhex : objectIDFromHex req.formId = some oid) (hc : parseFloat req.formCost = some c) :
    (handleModify true db req).1 = .ok (alertScript "Book modified successfully!") ∧
    (handleModify true db req).1.statusCode = 200 := by
  constructor <;> simp [handleModify, hm, hne, hhex, hc, Response.statusCode]

/-- Witness for C2 on the empty store: the id matches nothing, the update
affects zero records, and the response still says modified. -/
theorem modify_success_regardless_of_match_witness :
    (handleModify true [] ⟨"POST", "000000000000000000000001", "N", "A", "3"⟩).1 =
      .ok (alertScript "Book modified successfully!") ∧
    (handleModify true [] ⟨"POST", "000000000000000000000001", "N", "A", "3"⟩).1.statusCode
      = 200 :=
  modify_success_regardless_of_match [] ⟨"POST", "000000000000000000000001", "N", "A", "3"⟩ 1
    (.finite 3) rfl (by decide) (by decide) (by decide)

/-- C3 counterexample: on a concrete create request the record handed to the
store insert already carries an id — the one the handler just generated with
primitive.NewObjectID — so the create operation does not pass a record without
an id to insert, and the id stored is the handler-chosen one, not one assigned
by the store. -/
theorem store_assigns_id_counterexample :
    (submitBook 7 ⟨"POST", "", "Name", "Author", "1"⟩ (.finite 1)).id = 7 ∧
    (submitBook 7 ⟨"POST", "", "Name", "Author", "1"⟩ (.finite 1)).id ≠ nilObjectID ∧
    parseFloat "1" = some (.finite 1) ∧
    handleSubmit true 7 [] ⟨"POST", "", "Name", "Author", "1"⟩ =
      (.ok (alertScript "Book added successfully!"),
        [submitBook 7 ⟨"POST", "", "Name", "Author", "1"⟩ (.finite 1)]) :=
  ⟨rfl, by decide, by decide, by decide⟩

/-- C3 (amended): the id is generated by the create handler (via
primitive.NewObjectID) before the store insert; insert persists the record
with that id unchanged; the generated id is distinct from every prior id; and
the id is immutable thereafter — update rewrites only the non-id fields
(the id multiset of the store is unchanged) and delete only removes records,
never altering a surviving record. -/
theorem handler_generates_immutable_id (db : List Book) (req : Request) (freshId oid : Nat)
    (n a : String) (c cNew : GoFloat)
    (hm : req.method = "POST") (hc : parseFloat req.formCost = some c)
    (hfresh : freshId ∉ db.map Book.id) :
    (submitBook freshId req c).id = freshId ∧
    (handleSubmit true freshId db req).2 = db ++ [submitBook freshId req c] ∧
    (∀ b ∈ db, b.id ≠ freshId) ∧
    (updateOne db oid n a cNew).1.map Book.id = db.map Book.id ∧
    (∀ b ∈ (deleteOne db oid).1, b ∈ db) := by
  have h := handleSubmit_ok db req freshId c hm hc hfresh
  refine ⟨rfl, by rw [h], ?_, updateOne_map_id db oid n a cNew, deleteOne_subset db oid⟩
  intro b hb he
  exact hfresh (List.mem_map.mpr ⟨b, hb, he⟩)

/-- Witness for the amended C3 at a concrete request over a one-record store. -/
theorem handler_generates_immutable_id_witness :
    (submitBook 9 ⟨"POST", "", "Name", "Author", "1"⟩ (.finite 1)).id = 9 ∧
    (handleSubmit true 9 [⟨1, "Dune", "Herbert", .finite 5⟩]
        ⟨"POST", "", "Name", "Author", "1"⟩).2 =
      [⟨1, "Dune", "Herbert", .finite 5⟩] ++
        [submitBook 9 ⟨"POST", "", "Name", "Author", "1"⟩ (.finite 1)] ∧
    (∀ b ∈ [(⟨1, "Dune", "Herbert", .finite 5⟩ : Book)], b.id ≠ 9) ∧
    (updateOne [⟨1, "Dune", "Herbert", .finite 5⟩] 1 "x" "y" (.finite 0)).1.map Book.id =
      [⟨1, "Dune", "Herbert", .finite 5⟩].map Book.id ∧
    (∀ b ∈ (deleteOne [(⟨1, "Dune", "Herbert", .finite 5⟩ : Book)] 1).1,
      b ∈ [(⟨1, "Dune", "Herbert", .finite 5⟩ : Book)]) :=
  handler_generates_immutable_id [⟨1, "Dune", "Herbert", .finite 5⟩]
    ⟨"POST", "", "Name", "Author", "1"⟩ 9 1 "x" "y" (.finite 1) (.finite 0) rfl
    (by decide) (by decide)

/-- C4 counterexample: the cost string "-1" parses under strconv.ParseFloat
even though it is negative, and POST /submit stores a record with cost -1, so
storage is not gated on the cost being non-negative. -/
theorem negative_cost_accepted_counterexample :
    parseFloat "-1" = some (.finite (-1)) ∧
    ((-1 : ℚ) < 0) ∧
    handleSubmit true 3 [] ⟨"POST", "", "Neg", "Author", "-1"⟩ =
      (.ok (alertScript "Book added successfully!"),
        [submitBook 3 ⟨"POST", "", "Neg", "Author", "-1"⟩ (.finite (-1))]) :=
  ⟨by decide, by norm_num, by decide⟩

/-- C4 (amended): a record is stored or updated exactly on the cost strings
strconv.ParseFloat accepts — signed decimal or hex floating point text, which
includes negative values — with "12.50" accepted as 12.5; any non-parsing text
such as "abc" is rejected with a 400 response before any store call (the
result does not depend on the store oracle and the collection is unchanged). -/
theorem cost_parse_gates_store (db : List Book) (req : Request) (storeOk : Bool) (freshId : Nat)
    (hm : req.method = "POST") (hc : parseFloat req.formCost = none) :
    handleSubmit storeOk freshId db req = (.httpError "Invalid cost" 400, db) ∧
    (handleModify storeOk db req).2 = db ∧
    (handleModify storeOk db req).1.statusCode = 400 ∧
    parseFloat "12.50" = some (.finite (25/2)) ∧
    parseFloat "abc" = none := by
  refine ⟨by simp [handleSubmit, hm, hc], ?_, ?_, by decide, by decide⟩
  · by_cases h0 : req.formId = ""
    · simp [handleModify, hm, h0]
    · cases h2 : objectIDFromHex req.formId with
      | none => simp [handleModify, hm, h0, h2]
      | some o => simp [handleModify, hm, h0, h2, hc]
  · by_cases h0 : req.formId = ""
    · simp [handleModify, hm, h0, Response.statusCode]
    · cases h2 : objectIDFromHex req.formId with
      | none => simp [handleModify, hm, h0, h2, Response.statusCode]
      | some o => simp [handleModify, hm, h0, h2, hc, Response.statusCode]

/-- Witness for the amended C4: "abc" as the cost of a modify request with a
well-formed id, and of a submit request, is rejected with 400 and no change. -/
theorem cost_parse_gates_store_witness :
    handleSubmit true 5 [⟨1, "Dune", "Herbert", .finite 5⟩]
        ⟨"POST", "000000000000000000000001", "N", "A", "abc"⟩ =
      (.httpError "Invalid cost" 400, [⟨1, "Dune", "Herbert", .finite 5⟩]) ∧
    (handleModify true [⟨1, "Dune", "Herbert", .finite 5⟩]
        ⟨"POST", "000000000000000000000001", "N", "A", "abc"⟩).2 =
      [⟨1, "Dune", "Herbert", .finite 5⟩] ∧
    (handleModify true [⟨1, "Dune", "Herbert", .finite 5⟩]
        ⟨"POST", "000000000000000000000001", "N", "A", "abc"⟩).1.statusCode = 400 ∧
    parseFloat "12.50" = some (.finite (25/2)) ∧
    parseFloat "abc" = none :=
  cost_parse_gates_store [⟨1, "Dune", "Herbert", .finite 5⟩]
    ⟨"POST", "000000000000000000000001", "N", "A", "abc"⟩ true 5 rfl (by decide)

/-- C5: a POST /delete request with a well-formed id matching no record never
errors: it returns the 200 fragment whose acknowledgement says the book was
not found, and the collection is returned unchanged. -/
theorem delete_nonexistent_not_found (db : List Book) (req : Request) (oid : Nat)
    (hm : req.method = "POST") (hne : req.formId ≠ "")
    (hhex : objectIDFromHex req.formId = some oid) (habs : oid ∉ db.map Book.id) :
    handleDelete true db req = (.ok (alertScript "Book not found!"), db) := by
  have hd := deleteOne_of_not_mem db oid habs
  simp [handleDelete, hm, hne, hhex, hd]

/-- Witness for C5: deleting id 2 from a store holding only id 1. -/
theorem delete_nonexistent_not_found_witness :
    handleDelete true [⟨1, "Dune", "Herbert", .finite 5⟩]
        ⟨"POST", "000000000000000000000002", "", "", ""⟩ =
      (.ok (alertScript "Book not found!"), [⟨1, "Dune", "Herbert", .finite 5⟩]) :=
  delete_nonexistent_not_found [⟨1, "Dune", "Herbert", .finite 5⟩]
    ⟨"POST", "000000000000000000000002", "", "", ""⟩ 2 rfl (by decide) (by decide) (by decide)

/-- C6: delete is idempotent — the first POST /delete of an id present in the
store removes exactly the one record with that id and reports deleted; the
immediately repeated delete of the same id removes nothing and reports not
found. -/
theorem delete_idempotent (db : List Book) (req : Request) (oid : Nat)
    (hm : req.method = "POST") (hne : req.formId ≠ "")
    (hhex : objectIDFromHex req.formId = some oid)
    (hmem : oid ∈ db.map Book.id) (hnd : (db.map Book.id).Nodup) :
    (handleDelete true db req).1 = .ok (alertScript "Book deleted successfully!") ∧
    (handleDelete true db req).2 = db.filter (fun b => b.id ≠ oid) ∧
    (handleDelete true db req).2.length + 1 = db.length ∧
    (∀ b ∈ db, b.id ≠ oid → b ∈ (handleDelete true db req).2) ∧
    (handleDelete true (handleDelete true db req).2 req).1 =
      .ok (alertScript "Book not found!") ∧
    (handleDelete true (handleDelete true db req).2 req).2 = (handleDelete true db req).2 := by
  obtain ⟨hcount, hlen⟩ := deleteOne_count_of_mem db oid hmem
  have hfil := deleteOne_eq_filter db oid hnd
  have hrun : handleDelete true db req =
      (.ok (alertScript "Book deleted successfully!"), db.filter (fun b => b.id ≠ oid)) := by
    simp [handleDelete, hm, hne, hhex, hcount, hfil]
  have habs2 : oid ∉ (db.filter (fun b => b.id ≠ oid)).map Book.id := by
    intro hmem2
    obtain ⟨b, hbf, hid⟩ := List.mem_map.mp hmem2
    have := (List.mem_filter.mp hbf).2
    simp [hid] at this
  have hrun2 := delete_nonexistent_not_found (db.filter (fun b => b.id ≠ oid)) req oid hm hne hhex habs2
  refine ⟨by rw [hrun], by rw [hrun], ?_, ?_, by rw [hrun]; rw [hrun2], by rw [hrun, hrun2]⟩
  · rw [hrun, ← hfil]; exact hlen
  · intro b hb hbne
    rw [hrun]
    exact List.mem_filter.mpr ⟨hb, by simpa using hbne⟩

/-- Witness for C6 on a two-record store, deleting id 1 twice. -/
theorem delete_idempotent_witness :
    (handleDelete true [⟨1, "Dune", "Herbert", .finite 5⟩, ⟨2, "Emma", "Austen", .finite 3⟩]
        ⟨"POST", "000000000000000000000001", "", "", ""⟩).1 =
      .ok (alertScript "Book deleted successfully!") ∧
    (handleDelete true [⟨1, "Dune", "Herbert", .finite 5⟩, ⟨2, "Emma", "Austen", .finite 3⟩]
        ⟨"POST", "000000000000000000000001", "", "", ""⟩).2 =
      [(⟨1, "Dune", "Herbert", .finite 5⟩ : Book), ⟨2, "Emma", "Austen", .finite 3⟩].filter
        (fun b => b.id ≠ 1) ∧
    (handleDelete true [⟨1, "Dune", "Herbert", .finite 5⟩, ⟨2, "Emma", "Austen", .finite 3⟩]
        ⟨"POST", "000000000000000000000001", "", "", ""⟩).2.length + 1 =
      [(⟨1, "Dune", "Herbert", .finite 5⟩ : Book), ⟨2, "Emma", "Austen", .finite 3⟩].length ∧
    (∀ b ∈ [(⟨1, "Dune", "Herbert", .finite 5⟩ : Book), ⟨2, "Emma", "Austen", .finite 3⟩],
      b.id ≠ 1 →
      b ∈ (handleDelete true
        [⟨1, "Dune", "Herbert", .finite 5⟩, ⟨2, "Emma", "Austen", .finite 3⟩]
        ⟨"POST", "000000000000000000000001", "", "", ""⟩).2) ∧
    (handleDelete true
      (handleDelete true [⟨1, "Dune", "Herbert", .finite 5⟩, ⟨2, "Emma", "Austen", .finite 3⟩]
        ⟨"POST", "000000000000000000000001", "", "", ""⟩).2
      ⟨"POST", "000000000000000000000001", "", "", ""⟩).1 =
      .ok (alertScript "Book not found!") ∧
    (handleDelete true
      (handleDelete true [⟨1, "Dune", "Herbert", .finite 5⟩, ⟨2, "Emma", "Austen", .finite 3⟩]
        ⟨"POST", "000000000000000000000001", "", "", ""⟩).2
      ⟨"POST", "000000000000000000000001", "", "", ""⟩).2 =
      (handleDelete true [⟨1, "Dune", "Herbert", .finite 5⟩, ⟨2, "Emma", "Austen", .finite 3⟩]
        ⟨"POST", "000000000000000000000001", "", "", ""⟩).2 :=
  delete_idempotent [⟨1, "Dune", "Herbert", .finite 5⟩, ⟨2, "Emma", "Austen", .finite 3⟩]
    ⟨"POST", "000000000000000000000001", "", "", ""⟩ 1 rfl (by decide) (by decide)
    (by decide) (by decide)

/-- C7: a POST /modify request whose id is present overwrites exactly the
three non-id fields of that one record with the submitted values, keeping its
id; every other record is unchanged; the id multiset of the store is
unchanged. -/
theorem modify_overwrites_exactly (db : List Book) (req : Request) (oid : Nat) (c : GoFloat)
    (hm : req.method = "POST") (hne : req.formId ≠ "")
    (hhex : objectIDFromHex req.formId = some oid) (hc : parseFloat req.formCost = some c)
    (_hmem : oid ∈ db.map Book.id) (hnd : (db.map Book.id).Nodup) :
    (handleModify true db req).1 = .ok (alertScript "Book modified successfully!") ∧
    (handleModify true db req).2 =
      db.map (fun b => if b.id = oid then
        { id := oid, name := req.formName, author := req.formAuthor, cost := c } else b) ∧
    (handleModify true db req).2.map Book.id = db.map Book.id := by
  have hupd := updateOne_eq_map db oid req.formName req.formAuthor c hnd
  have hids := updateOne_map_id db oid req.formName req.formAuthor c
  refine ⟨by simp [handleModify, hm, hne, hhex, hc], ?_, ?_⟩
  · simp only [handleModify, hm, hne, hhex, hc]
    simpa using hupd
  · simp only [handleModify, hm, hne, hhex, hc]
    simpa using hids

/-- Witness for C7 on a two-record store, modifying the record with id 1. -/
theorem modify_overwrites_exactly_witness :
    (handleModify true [⟨1, "Dune", "Herbert", .finite 5⟩, ⟨2, "Emma", "Austen", .finite 3⟩]
        ⟨"POST", "000000000000000000000001", "NewName", "NewAuthor", "2.5"⟩).1 =
      .ok (alertScript "Book modified successfully!") ∧
    (handleModify true [⟨1, "Dune", "Herbert", .finite 5⟩, ⟨2, "Emma", "Austen", .finite 3⟩]
        ⟨"POST", "000000000000000000000001", "NewName", "NewAuthor", "2.5"⟩).2 =
      [(⟨1, "Dune", "Herbert", .finite 5⟩ : Book), ⟨2, "Emma", "Austen", .finite 3⟩].map
        (fun b => if b.id = 1 then
          { id := 1, name := "NewName", author := "NewAuthor", cost := .finite (5/2) } else b) ∧
    (handleModify true [⟨1, "Dune", "Herbert", .finite 5⟩, ⟨2, "Emma", "Austen", .finite 3⟩]
        ⟨"POST", "000000000000000000000001", "NewName", "NewAuthor", "2.5"⟩).2.map Book.id =
      [(⟨1, "Dune", "Herbert", .finite 5⟩ : Book), ⟨2, "Emma", "Austen", .finite 3⟩].map
        Book.id :=
  modify_overwrites_exactly [⟨1, "Dune", "Herbert", .finite 5⟩, ⟨2, "Emma", "Austen", .finite 3⟩]
    ⟨"POST", "000000000000000000000001", "NewName", "NewAuthor", "2.5"⟩ 1 (.finite (5/2)) rfl
    (by decide) (by decide) (by decide) (by decide) (by decide)

/-- C8: a POST /delete or POST /modify request whose id field is missing
(empty, as FormValue reports a missing field) gets 400 before any store call:
the result is the same for every store oracle and the collection is returned
untouched. -/
theorem missing_id_rejected_before_store (db : List Book) (req : Request) (storeOk : Bool)
    (hm : req.method = "POST") (hempty : req.formId = "") :
    handleDelete storeOk db req = (.httpError "Invalid book ID" 400, db) ∧
    handleModify storeOk db req = (.httpError "Invalid book ID" 400, db) := by
  constructor <;> simp [handleDelete, handleModify, hm, hempty]

/-- Witness for C8 with an empty id over a one-record store and a failing
store oracle, showing the store is never consulted. -/
theorem missing_id_rejected_before_store_witness :
    handleDelete false [⟨1, "Dune", "Herbert", .finite 5⟩] ⟨"POST", "", "N", "A", "1"⟩ =
      (.httpError "Invalid book ID" 400, [⟨1, "Dune", "Herbert", .finite 5⟩]) ∧
    handleModify false [⟨1, "Dune", "Herbert", .finite 5⟩] ⟨"POST", "", "N", "A", "1"⟩ =
      (.httpError "Invalid book ID" 400, [⟨1, "Dune", "Herbert", .finite 5⟩]) :=
  missing_id_rejected_before_store [⟨1, "Dune", "Herbert", .finite 5⟩]
    ⟨"POST", "", "N", "A", "1"⟩ false rfl rfl

/-- C9: the listing page escapes every record field — for each stored record
the escaped name and author occur in the rendered page, the handler serves
exactly that page on GET /, and for the concrete markup name from the spec
the raw markup does not occur in the rendered output while its escaped form
does. -/
theorem listing_escapes_fields (db : List Book) (b : Book) (hb : b ∈ db) :
    List.IsInfix (htmlEscapeString b.name).toList (renderIndex db).toList ∧
    List.IsInfix (htmlEscapeString b.author).toList (renderIndex db).toList ∧
    handleIndex true db "GET" = .page (renderIndex db) ∧
    htmlEscapeString "<b>X</b>" = "&lt;b&gt;X&lt;/b&gt;" ∧
    ¬ List.IsInfix "<b>X</b>".toList
        (renderIndex [{ id := 1, name := "<b>X</b>", author := "A", cost := .finite 1 }]).toList ∧
    List.IsInfix "&lt;b&gt;X&lt;/b&gt;".toList
        (renderIndex [{ id := 1, name := "<b>X</b>", author := "A", cost := .finite 1 }]).toList := by
  obtain ⟨h1, h2⟩ := renderIndex_infix_of_mem db b hb
  exact ⟨h1, h2, by simp [handleIndex, getBooks], by decide, by decide, by decide⟩

/-- Witness for C9 on a store holding one record whose name is markup. -/
theorem listing_escapes_fields_witness :
    List.IsInfix (htmlEscapeString "<b>X</b>").toList
      (renderIndex [{ id := 1, name := "<b>X</b>", author := "A", cost := .finite 1 }]).toList ∧
    List.IsInfix (htmlEscapeString "A").toList
      (renderIndex [{ id := 1, name := "<b>X</b>", author := "A", cost := .finite 1 }]).toList ∧
    handleIndex true [{ id := 1, name := "<b>X</b>", author := "A", cost := .finite 1 }] "GET" =
      .page (renderIndex [{ id := 1, name := "<b>X</b>", author := "A", cost := .finite 1 }]) ∧
    htmlEscapeString "<b>X</b>" = "&lt;b&gt;X&lt;/b&gt;" ∧
    ¬ List.IsInfix "<b>X</b>".toList
        (renderIndex [{ id := 1, name := "<b>X</b>", author := "A", cost := .finite 1 }]).toList ∧
    List.IsInfix "&lt;b&gt;X&lt;/b&gt;".toList
        (renderIndex [{ id := 1, name := "<b>X</b>", author := "A", cost := .finite 1 }]).toList :=
  listing_escapes_fields [{ id := 1, name := "<b>X</b>", author := "A", cost := .finite 1 }]
    { id := 1, name := "<b>X</b>", author := "A", cost := .finite 1 } (by simp)

/-- C10: on POST /modify, id validation strictly precedes cost validation —
a missing or malformed id yields 400 "Invalid book ID" whatever the cost
string holds and without the cost being examined, and the "Invalid cost"
response can only arise from a request whose id is nonempty and well-formed. -/
theorem modify_checks_id_before_cost (db : List Book) (req : Request) (storeOk : Bool)
    (hm : req.method = "POST")
    (hbad : req.formId = "" ∨ objectIDFromHex req.formId = none) :
    handleModify storeOk db req = (.httpError "Invalid book ID" 400, db) ∧
    (∀ (db2 : List Book) (req2 : Request) (sOk2 : Bool),
      (handleModify sOk2 db2 req2).1 = .httpError "Invalid cost" 400 →
      req2.formId ≠ "" ∧ ∃ o, objectIDFromHex req2.formId = some o) := by
  constructor
  · rcases hbad with h | h
    · simp [handleModify, hm, h]
    · by_cases h0 : req.formId = ""
      · simp [handleModify, hm, h0]
      · simp [handleModify, hm, h0, h]
  · intro db2 req2 sOk2 hresp
    by_cases hm2 : req2.method = "POST"
    · by_cases h0 : req2.formId = ""
      · rw [show (handleModify sOk2 db2 req2).1 = Response.httpError "Invalid book ID" 400 from
          by simp [handleModify, hm2, h0]] at hresp
        exact absurd hresp (by decide)
      · cases h2 : objectIDFromHex req2.formId with
        | none =>
          rw [show (handleModify sOk2 db2 req2).1 = Response.httpError "Invalid book ID" 400 from
            by simp [handleModify, hm2, h0, h2]] at hresp
          exact absurd hresp (by decide)
        | some o => exact ⟨h0, o, rfl⟩
    · rw [show (handleModify sOk2 db2 req2).1 = Response.httpError "Method not allowed" 405 from
        by simp [handleModify, hm2]] at hresp
      exact absurd hresp (by decide)

/-- Witness for C10: a modify request whose id is not hex and whose cost is
also unparseable is answered with the id error. -/
theorem modify_checks_id_before_cost_witness :
    handleModify true [⟨1, "Dune", "Herbert", .finite 5⟩]
        ⟨"POST", "nothex", "N", "A", "abc"⟩ =
      (.httpError "Invalid book ID" 400, [⟨1, "Dune", "Herbert", .finite 5⟩]) ∧
    (∀ (db2 : List Book) (req2 : Request) (sOk2 : Bool),
      (handleModify sOk2 db2 req2).1 = .httpError "Invalid cost" 400 →
      req2.formId ≠ "" ∧ ∃ o, objectIDFromHex req2.formId = some o) :=
  modify_checks_id_before_cost [⟨1, "Dune", "Herbert", .finite 5⟩]
    ⟨"POST", "nothex", "N", "A", "abc"⟩ true rfl (Or.inr (by decide))

end ClaimProofs
